import Mathlib

/-
Verification of the gha-guard workflow parser and rule engine.

The development shallowly embeds the Python modules
`src/parser/workflow_parser.py`, `src/rules/engine.py`,
`src/rules/unpinned_actions.py`, `src/rules/permissions.py`,
`src/rules/script_injection.py`, `src/rules/dangerous_triggers.py` and
`src/rules/secret_handling.py`.

Conventions of the embedding:
- A loaded YAML value is a `Yaml` tree; Python dictionaries are association
  lists with `Key` keys (YAML mapping keys are hashable scalars).
- Fallible Python code is modelled in `Except PyErr`; an uncaught Python
  exception is an `Except.error` value.
- The PyYAML loader hook `_construct_mapping` is modelled per mapping node:
  it receives an already-constructed mapping and adds the `__line__` entry
  with Python dict-assignment semantics.
-/

namespace GhaGuard

/-- A YAML mapping key as produced by the loader (a hashable Python scalar:
the bare `on:` key parses to the boolean `True` in YAML 1.1). -/
inductive Key where
  | str (s : String)
  | bool (b : Bool)
  | int (n : Int)
  deriving DecidableEq

/-- A loaded YAML value (the Python object produced by `yaml.load`). -/
inductive Yaml where
  | str (s : String)
  | int (n : Int)
  | bool (b : Bool)
  | null
  | list (xs : List Yaml)
  | map (es : List (Key × Yaml))

/-- The key object viewed as a plain Python value (a dict key is the same
object when enumerated by `dict.keys()`). -/
def Key.toYaml : Key → Yaml
  | .str s => .str s
  | .bool b => .bool b
  | .int n => .int n

/-- Python `str()` of a key. -/
def Key.pyStr : Key → String
  | .str s => s
  | .bool true => "True"
  | .bool false => "False"
  | .int n => toString n

/-- Python `dict.get(k)`: the first (unique) binding of `k`, if any. -/
def dGet (es : List (Key × Yaml)) (k : Key) : Option Yaml :=
  (es.find? (fun kv => kv.1 == k)).map (fun kv => kv.2)

/-- Python `dict.get(k, dflt)`. -/
def dGetD (es : List (Key × Yaml)) (k : Key) (dflt : Yaml) : Yaml :=
  match dGet es k with
  | some v => v
  | none => dflt

/-- Python `dict[k] = v`: overwrite in place when the key exists, else
append at the end (insertion order is preserved). -/
def pyInsert : List (Key × Yaml) → Key → Yaml → List (Key × Yaml)
  | [], k, v => [(k, v)]
  | (k0, v0) :: rest, k, v =>
    if k0 == k then (k0, v) :: rest else (k0, v0) :: pyInsert rest k v

/-- Python truthiness of a loaded value. -/
def pyTruthy : Yaml → Bool
  | .null => false
  | .str s => !(s == "")
  | .int n => !(n == 0)
  | .bool b => b
  | .list xs => !xs.isEmpty
  | .map es => !es.isEmpty

/-- Python `v == s` for a string literal `s`: true only when `v` is an
equal string. -/
def yamlEqStr (v : Yaml) (s : String) : Bool :=
  match v with
  | .str x => x == s
  | _ => false

/-- Python `repr` of a loaded value (fuelled; the fuel is instantiated with
`sizeOf`, which bounds the tree depth). -/
def pyReprAux : Nat → Yaml → String
  | 0, _ => ""
  | _ + 1, .str s => "\x27" ++ s ++ "\x27"
  | _ + 1, .int n => toString n
  | _ + 1, .bool true => "True"
  | _ + 1, .bool false => "False"
  | _ + 1, .null => "None"
  | fuel + 1, .list xs =>
      "[" ++ String.intercalate ", " (xs.map (pyReprAux fuel)) ++ "]"
  | fuel + 1, .map es =>
      "\x7b" ++ String.intercalate ", "
        (es.map (fun kv =>
          (match kv.1 with
           | .str s => "\x27" ++ s ++ "\x27"
           | k => k.pyStr) ++ ": " ++ pyReprAux fuel kv.2)) ++ "\x7d"

mutual

/-- Nesting depth of a loaded value (fuel bound for `pyReprAux`). -/
def yamlDepth : Yaml → Nat
  | .list xs => yamlDepthList xs + 1
  | .map es => yamlDepthEntries es + 1
  | _ => 1

/-- Nesting depth of a sequence of loaded values. -/
def yamlDepthList : List Yaml → Nat
  | [] => 0
  | x :: xs => max (yamlDepth x) (yamlDepthList xs)

/-- Nesting depth of the values of a mapping. -/
def yamlDepthEntries : List (Key × Yaml) → Nat
  | [] => 0
  | kv :: es => max (yamlDepth kv.2) (yamlDepthEntries es)

end

/-- Python `str()` of a loaded value. -/
def pyStr : Yaml → String
  | .str s => s
  | .int n => toString n
  | .bool true => "True"
  | .bool false => "False"
  | .null => "None"
  | v => pyReprAux (yamlDepth v) v

/-- Python `a or b` where the result is consumed as a string (`a` is kept
when truthy, else `b`; a truthy non-string is rendered with `str`). -/
def pyOrStr (v : Yaml) (dflt : String) : String :=
  if pyTruthy v then pyStr v else dflt

/-- A Python exception escaping a call. -/
inductive PyErr where
  | valueError (msg : String)
  | yamlError
  | attributeError (msg : String)
  | typeError (msg : String)
  deriving DecidableEq

/-- Python `for x in v`: sequences yield elements, strings yield their
characters, dicts yield their keys; scalars are not iterable. -/
def pyIterate : Yaml → Except PyErr (List Yaml)
  | .list xs => .ok xs
  | .str s => .ok (s.data.map (fun c => .str (String.mk [c])))
  | .map es => .ok (es.map (fun kv => kv.1.toYaml))
  | _ => .error (.typeError "object is not iterable")

/-- Python `c in s` for a one-character needle. -/
def hasChar (c : Char) : List Char → Bool
  | [] => false
  | x :: xs => x == c || hasChar c xs

/-- The `list.isPrefixOf` on characters, written out so every use reduces in
the kernel. -/
def listIsPre : List Char → List Char → Bool
  | [], _ => true
  | _ :: _, [] => false
  | a :: as, b :: bs => a == b && listIsPre as bs

/-- Python `needle in hay` for strings (substring containment). -/
def containsSub (hay needle : List Char) : Bool :=
  listIsPre needle hay ||
    match hay with
    | [] => false
    | _ :: t => containsSub t needle

/-- Python `s.rsplit(c, 1)`: split at the last occurrence of `c`, if any. -/
def rsplit1 (c : Char) : List Char → Option (List Char × List Char)
  | [] => none
  | x :: xs =>
    match rsplit1 c xs with
    | some (a, b) => some (x :: a, b)
    | none => if x == c then some ([], xs) else none

/-- Python `s.split(c)` for a one-character separator. -/
def splitOnChar (c : Char) : List Char → List (List Char)
  | [] => [[]]
  | x :: xs =>
    let r := splitOnChar c xs
    if x == c then [] :: r
    else
      match r with
      | h :: t => (x :: h) :: t
      | [] => [[x]]

/-- Python `s.strip(cs)`: drop characters of the set from both ends. -/
def pyStrip (cs l : List Char) : List Char :=
  ((l.dropWhile (cs.contains ·)).reverse.dropWhile (cs.contains ·)).reverse

/-- The `ActionRef` of `workflow_parser.py`: a parsed reference to an action. -/
structure ActionRef where
  full_ref : String
  owner : String
  repo : String
  ref : String
  is_pinned : Bool
  deriving DecidableEq

/-- The `Step` of `workflow_parser.py`. Fields that the source reads with
`dict.get` hold the loaded value itself (`Yaml.null` when absent). -/
structure Step where
  name : Yaml
  uses : Option ActionRef
  run : Yaml
  env : Yaml
  with_args : Yaml
  raw : List (Key × Yaml)
  line_number : Yaml

/-- The `Job` of `workflow_parser.py`. -/
structure Job where
  job_id : Key
  name : Yaml
  runs_on : String
  permissions : Option (List (Key × Yaml))
  steps : List Step
  env : Yaml
  raw : List (Key × Yaml)
  line_number : Yaml

/-- The `Workflow` of `workflow_parser.py`. -/
structure Workflow where
  file_path : String
  name : Yaml
  triggers : List Yaml
  permissions : Option (List (Key × Yaml))
  env : Yaml
  jobs : List Job
  raw : List (Key × Yaml)
  line_number : Yaml

/-- The loader hook `_construct_mapping`: after PyYAML constructs a mapping
node, the hook executes `mapping["__line__"] = node.start_mark.line + 1`.
`line` is the already 1-indexed line number. -/
def _construct_mapping (mapping : List (Key × Yaml)) (line : Nat) : List (Key × Yaml) :=
  pyInsert mapping (.str "__line__") (.int line)

/-- Hex digits accepted by the pin check (`"0123456789abcdef"`). -/
def hexDigits : List Char := "0123456789abcdef".data

/-- The pin classification inside `_parse_action_ref`:
`len(ref) == 40 and all(c in "0123456789abcdef" for c in ref.lower())`. -/
def is_pinned (ref : String) : Bool :=
  ref.length == 40 && (ref.data.map Char.toLower).all (fun c => hasChar c hexDigits)

/-- The `_parse_action_ref` of `workflow_parser.py`. -/
def _parse_action_ref (uses_string : String) : Option ActionRef :=
  if uses_string == "" || !hasChar '/' uses_string.data then none
  else if listIsPre "docker://".data uses_string.data
       || listIsPre "./".data uses_string.data then none
  else if !hasChar '@' uses_string.data then none
  else
    match rsplit1 '@' uses_string.data with
    | none => none
    | some (pathPart, refPart) =>
      let ref := String.mk refPart
      match splitOnChar '/' pathPart with
      | owner :: repo :: _ =>
          some { full_ref := uses_string, owner := String.mk owner,
                 repo := String.mk repo, ref := ref, is_pinned := is_pinned ref }
      | _ => none

/-- The `uses` computation of `_parse_step`:
`_parse_action_ref(uses_str) if uses_str else None`. The helper is typed
`str`; a truthy non-string argument makes its `in`-tests fail with a
`TypeError`. -/
def stepUses (uses_str : Yaml) : Except PyErr (Option ActionRef) :=
  if pyTruthy uses_str then
    match uses_str with
    | .str s => .ok (_parse_action_ref s)
    | _ => .error (.typeError "argument should be a string")
  else .ok none

/-- The `_parse_step` of `workflow_parser.py` (called on elements already known
to be mappings). -/
def _parse_step (step_raw : List (Key × Yaml)) : Except PyErr Step := do
  let uses ← stepUses (dGetD step_raw (.str "uses") .null)
  .ok { name := dGetD step_raw (.str "name") .null,
        uses := uses,
        run := dGetD step_raw (.str "run") .null,
        env := dGetD step_raw (.str "env") (.map []),
        with_args := dGetD step_raw (.str "with") (.map []),
        raw := step_raw,
        line_number := dGetD step_raw (.str "__line__") .null }

/-- The `_parse_triggers` of `workflow_parser.py`. -/
def _parse_triggers : Yaml → List Yaml
  | .str s => [.str s]
  | .list xs => xs
  | .map es => es.map (fun kv => kv.1.toYaml)
  | _ => []

/-- The `_parse_permissions` of `workflow_parser.py`. -/
def _parse_permissions : Yaml → Option (List (Key × Yaml))
  | .null => none
  | .str s => some [(.str "_all", .str s)]
  | .map es => some es
  | _ => none

/-- The `_parse_job` of `workflow_parser.py`. A non-mapping job value fails on
`job_raw.get` with an `AttributeError`; a non-iterable `steps` value fails
the list comprehension with a `TypeError`. -/
def _parse_job (job_id : Key) (job_raw : Yaml) : Except PyErr Job :=
  match job_raw with
  | .map jes => do
      let it ← pyIterate (dGetD jes (.str "steps") (.list []))
      let steps_raw := it.filterMap (fun s =>
        match s with
        | .map m => some m
        | _ => none)
      let steps ← steps_raw.mapM _parse_step
      .ok { job_id := job_id,
            name := dGetD jes (.str "name") .null,
            runs_on := pyStr (dGetD jes (.str "runs-on") (.str "")),
            permissions := _parse_permissions (dGetD jes (.str "permissions") .null),
            steps := steps,
            env := dGetD jes (.str "env") (.map []),
            raw := jes,
            line_number := dGetD jes (.str "__line__") .null }
  | _ => .error (.attributeError "object has no attribute get")

/-- Outcome of reading and `yaml.load`-ing an existing file with the line
loader: either a YAML syntax failure or the loaded value. -/
inductive Loaded where
  | yamlError
  | ok (v : Yaml)

/-- The jobs stage of `parse_workflow`: `raw.get("jobs", {})`, then
`jobs_raw.items()` (an `AttributeError` on a non-mapping value) filtered of
the loader key, each entry parsed by `_parse_job`. -/
def parseJobsField (es : List (Key × Yaml)) : Except PyErr (List Job) :=
  match dGetD es (.str "jobs") (.map []) with
  | .map jes =>
      (jes.filter (fun kv => !(kv.1 == Key.str "__line__"))).mapM
        (fun kv => _parse_job kv.1 kv.2)
  | _ => .error (.attributeError "object has no attribute items")

/-- The `parse_workflow` of `workflow_parser.py`, applied to the loaded file
content. A non-mapping root raises `ValueError`; a present non-mapping
`jobs` value fails on `jobs_raw.items()` with an `AttributeError`. -/
def parse_workflow (file_path : String) (loaded : Loaded) : Except PyErr Workflow :=
  match loaded with
  | .yamlError => .error .yamlError
  | .ok raw =>
    match raw with
    | .map es =>
      match parseJobsField es with
      | .error e => .error e
      | .ok jobs =>
        .ok { file_path := file_path,
              name := dGetD es (.str "name") .null,
              triggers := _parse_triggers
                (dGetD es (.str "on") (dGetD es (.bool true) (.list []))),
              permissions := _parse_permissions (dGetD es (.str "permissions") .null),
              env := dGetD es (.str "env") (.map []),
              jobs := jobs,
              raw := es,
              line_number := dGetD es (.str "__line__") .null }
    | _ => .error (.valueError "Workflow file is not a valid YAML mapping")

/-- The `pathlib.Path.suffix` of a file name: the part from the last dot, empty
when the dot is missing, leading, or trailing. -/
def pySuffix (name : String) : String :=
  match rsplit1 '.' name.data with
  | none => ""
  | some (a, b) => if a.isEmpty || b.isEmpty then "" else String.mk ('.' :: b)

/-- Lexicographic (code-point) comparison of file names, as Python `sorted`
compares paths inside one directory. -/
def nameLt : List Char → List Char → Bool
  | [], [] => false
  | [], _ :: _ => true
  | _ :: _, [] => false
  | a :: as, b :: bs => a < b || (a == b && nameLt as bs)

/-- Insert one directory entry into a name-sorted list (stable). -/
def insertFile (x : String × Loaded) : List (String × Loaded) → List (String × Loaded)
  | [] => [x]
  | y :: ys => if nameLt y.1.data x.1.data then y :: insertFile x ys else x :: y :: ys

/-- The `sorted` over directory entries by file name. -/
def sortFiles : List (String × Loaded) → List (String × Loaded)
  | [] => []
  | x :: xs => insertFile x (sortFiles xs)

/-- The loop body of `parse_workflows_dir`: parse each file, append on
success, skip on `ValueError`/`yaml.YAMLError`, propagate anything else. -/
def parseDirGo : List (String × Loaded) → Except PyErr (List Workflow)
  | [] => .ok []
  | (nm, ld) :: rest =>
    match parse_workflow nm ld with
    | .ok w => do
        let ws ← parseDirGo rest
        .ok (w :: ws)
    | .error (.valueError _) => parseDirGo rest
    | .error .yamlError => parseDirGo rest
    | .error e => .error e

/-- The `parse_workflows_dir` of `workflow_parser.py`, applied to the directory
listing (file name paired with its loaded content). -/
def parse_workflows_dir (files : List (String × Loaded)) : Except PyErr (List Workflow) :=
  parseDirGo (sortFiles (files.filter
    (fun f => pySuffix f.1 == ".yml" || pySuffix f.1 == ".yaml")))

/-- The `Severity` of `engine.py`. -/
inductive Severity where
  | CRITICAL
  | HIGH
  | MEDIUM
  | LOW
  deriving DecidableEq

/-- The `Finding` of `engine.py`, with exactly the fields the dataclass
declares. -/
structure Finding where
  rule_id : String
  severity : Severity
  title : String
  description : String
  file_path : String
  job_id : String
  step_name : String
  deriving DecidableEq

/-- The field names declared by the `Finding` dataclass in `engine.py`. -/
def findingFields : List String :=
  ["rule_id", "severity", "title", "description", "file_path", "job_id", "step_name"]

/-- The message of the `TypeError` raised by an unexpected keyword. -/
def lineKwMsg : String :=
  "Finding.__init__() got an unexpected keyword argument \x27line_number\x27"

/-- Model of the constructor call `Finding(..., line_number=...)` found in
three rule modules: a dataclass call checks its keyword arguments against
the declared fields, so the extra `line_number` keyword raises `TypeError`
unless `Finding` declares such a field. -/
def findingWithLine (f : Finding) (_line : Yaml) : Except PyErr Finding :=
  if findingFields.contains "line_number" then .ok f
  else .error (.typeError lineKwMsg)

/-- Run a finding-producing action over a list and concatenate the results,
propagating the first raised exception (the Python `for` loop). -/
def concatMapE {α : Type} (f : α → Except PyErr (List Finding)) :
    List α → Except PyErr (List Finding)
  | [] => .ok []
  | x :: xs => do
      let l ← f x
      let r ← concatMapE f xs
      .ok (l ++ r)

/-- Body of the step loop of `check_unpinned_actions`. -/
def unpinnedStepFindings (wf : Workflow) (job : Job) (step : Step) :
    Except PyErr (List Finding) :=
  match step.uses with
  | some u =>
    if !u.is_pinned then do
      let f ← findingWithLine
        { rule_id := "unpinned-action", severity := .HIGH,
          title := "Unpinned action reference",
          description := "Action \x27" ++ u.full_ref
            ++ "\x27 is referenced by tag/branch \x27" ++ u.ref
            ++ "\x27, not by a commit SHA. A compromised or force-pushed tag"
            ++ " could inject malicious code into your workflow.",
          file_path := wf.file_path, job_id := job.job_id.pyStr,
          step_name := pyOrStr step.name u.full_ref }
        step.line_number
      .ok [f]
    else .ok []
  | none => .ok []

/-- The `check_unpinned_actions` of `unpinned_actions.py`. -/
def check_unpinned_actions (wf : Workflow) : Except PyErr (List Finding) :=
  concatMapE (fun job => concatMapE (unpinnedStepFindings wf job) job.steps) wf.jobs

/-- The test `permissions.get("_all") == "write-all"`. -/
def permWriteAll (perms : List (Key × Yaml)) : Bool :=
  match dGet perms (.str "_all") with
  | some (.str s) => s == "write-all"
  | _ => false

/-- Body of the job loop of `check_permissions` (`if job.permissions and
job.permissions.get("_all") == "write-all"`). -/
def jobPermFindings (wf : Workflow) (job : Job) : Except PyErr (List Finding) :=
  match job.permissions with
  | some ps =>
    if !ps.isEmpty && permWriteAll ps then
      .ok [{ rule_id := "write-all-permissions", severity := .CRITICAL,
             title := "Job \x27" ++ job.job_id.pyStr
               ++ "\x27 uses \x27permissions: write-all\x27",
             description := "Job \x27" ++ job.job_id.pyStr
               ++ "\x27 grants write access to ALL scopes. Restrict permissions"
               ++ " to only what this job needs.",
             file_path := wf.file_path, job_id := job.job_id.pyStr,
             step_name := "" }]
    else .ok []
  | none => .ok []

/-- The `check_permissions` of `permissions.py`. -/
def check_permissions (wf : Workflow) : Except PyErr (List Finding) := do
  let top : List Finding :=
    match wf.permissions with
    | none =>
        [{ rule_id := "missing-permissions", severity := .MEDIUM,
           title := "No top-level permissions defined",
           description := "This workflow does not declare a top-level"
             ++ " \x27permissions\x27 block. Without it, the default token may"
             ++ " have broad read-write access. Explicitly set permissions to"
             ++ " the minimum required.",
           file_path := wf.file_path, job_id := "", step_name := "" }]
    | some ps =>
        if permWriteAll ps then
          [{ rule_id := "write-all-permissions", severity := .CRITICAL,
             title := "Workflow uses \x27permissions: write-all\x27",
             description := "This workflow grants write access to ALL scopes"
               ++ " (contents, packages, issues, pull-requests, etc.). If any"
               ++ " step is compromised, the attacker gets full write access"
               ++ " to the repository.",
             file_path := wf.file_path, job_id := "", step_name := "" }]
        else []
  let jobFs ← concatMapE (jobPermFindings wf) wf.jobs
  .ok (top ++ jobFs)

/-- The `DANGEROUS_CONTEXTS` of `script_injection.py`. -/
def DANGEROUS_CONTEXTS : List String :=
  [ "github.event.issue.title",
    "github.event.issue.body",
    "github.event.pull_request.title",
    "github.event.pull_request.body",
    "github.event.comment.body",
    "github.event.review.body",
    "github.event.discussion.title",
    "github.event.discussion.body",
    "github.event.pages.*.page_name",
    "github.event.head_commit.message",
    "github.event.head_commit.author.name",
    "github.event.head_commit.author.email",
    "github.head_ref" ]

/-- Scan for the first `\x7d\x7d` and return the characters before it and
the remainder after it. -/
def findClose : List Char → Option (List Char × List Char)
  | '\x7d' :: '\x7d' :: rest => some ([], rest)
  | c :: rest => (findClose rest).map (fun p => (c :: p.1, p.2))
  | [] => none

/-- The `EXPRESSION_PATTERN.findall`: leftmost non-overlapping matches of the
non-greedy `\$\\x7b\\x7b.*?\\x7d\\x7d` over the whole text (DOTALL), as
character lists (fuelled by the text length). When no closing pair follows
a `$\x7b\x7b`, no later match exists either, so the scan may stop there. -/
def findExprsAux : Nat → List Char → List (List Char)
  | 0, _ => []
  | _ + 1, [] => []
  | fuel + 1, '$' :: '\x7b' :: '\x7b' :: rest =>
    match findClose rest with
    | some (inner, after) =>
        ('$' :: '\x7b' :: '\x7b' :: (inner ++ ['\x7d', '\x7d']))
          :: findExprsAux fuel after
    | none => findExprsAux fuel rest
  | fuel + 1, _ :: rest => findExprsAux fuel rest

/-- The `EXPRESSION_PATTERN.findall` over a script text. -/
def findExprs (l : List Char) : List (List Char) := findExprsAux l.length l

/-- The character set of `expr.strip("$\x7b\x7d ")`. -/
def stripSetChars : List Char := ['$', '\x7b', '\x7d', ' ']

/-- Body of the expression loop of `check_script_injection`: one finding
per dangerous context contained in the stripped inner text. -/
def injExprFindings (wf : Workflow) (job : Job) (step : Step) (expr : List Char) :
    Except PyErr (List Finding) :=
  let expr_inner := pyStrip stripSetChars expr
  concatMapE (fun dangerous =>
    if containsSub expr_inner dangerous.data then do
      let f ← findingWithLine
        { rule_id := "script-injection", severity := .CRITICAL,
          title := "Potential script injection",
          description := "The expression \x27" ++ String.mk expr
            ++ "\x27 in a \x27run:\x27 block uses the user-controlled context \x27"
            ++ dangerous
            ++ "\x27. An attacker could craft a malicious value that executes"
            ++ " arbitrary shell commands. Use an environment variable instead:\n"
            ++ "  env:\n    SAFE_VALUE: " ++ String.mk expr
            ++ "\n  run: echo \"$SAFE_VALUE\"",
          file_path := wf.file_path, job_id := job.job_id.pyStr,
          step_name := pyOrStr step.name "(unnamed step)" }
        step.line_number
      .ok [f]
    else .ok []) DANGEROUS_CONTEXTS

/-- Body of the step loop of `check_script_injection`: skip steps without a
truthy `run`, then scan the script for expressions. `findall` requires a
string argument. -/
def injStepFindings (wf : Workflow) (job : Job) (step : Step) :
    Except PyErr (List Finding) :=
  if !pyTruthy step.run then .ok []
  else
    match step.run with
    | .str s => concatMapE (injExprFindings wf job step) (findExprs s.data)
    | _ => .error (.typeError "expected string or bytes-like object")

/-- The `check_script_injection` of `script_injection.py`. -/
def check_script_injection (wf : Workflow) : Except PyErr (List Finding) :=
  concatMapE (fun job => concatMapE (injStepFindings wf job) job.steps) wf.jobs

/-- Body of the trigger checks of `check_dangerous_triggers` (Python `in`
over the trigger list compares with `==`). -/
def hasTrigger (wf : Workflow) (t : String) : Bool :=
  wf.triggers.any (fun v => yamlEqStr v t)

/-- The `check_dangerous_triggers` of `dangerous_triggers.py`. -/
def check_dangerous_triggers (wf : Workflow) : Except PyErr (List Finding) :=
  let l1 : List Finding :=
    if hasTrigger wf "pull_request_target" then
      [{ rule_id := "dangerous-trigger", severity := .HIGH,
         title := "Workflow uses \x27pull_request_target\x27 trigger",
         description := "The \x27pull_request_target\x27 trigger runs with write"
           ++ " access to the base repository and has access to secrets. If this"
           ++ " workflow checks out the PR head branch and runs any code from it,"
           ++ " an attacker can submit a malicious PR that executes arbitrary"
           ++ " code with elevated privileges. Consider using \x27pull_request\x27"
           ++ " instead, or ensure you never check out or execute untrusted PR"
           ++ " code.",
         file_path := wf.file_path, job_id := "", step_name := "" }]
    else []
  let l2 : List Finding :=
    if hasTrigger wf "workflow_dispatch" then
      [{ rule_id := "manual-trigger", severity := .LOW,
         title := "Workflow can be triggered manually",
         description := "This workflow uses \x27workflow_dispatch\x27, allowing"
           ++ " manual triggering. Ensure that only authorized users can trigger"
           ++ " it and that inputs are validated.",
         file_path := wf.file_path, job_id := "", step_name := "" }]
    else []
  .ok (l1 ++ l2)

/-- Python `\w` (word character), ASCII view. -/
def isWordChar (c : Char) : Bool := c.isAlphanum || c == '_'

/-- Python `\s` (whitespace). -/
def isSpaceChar (c : Char) : Bool :=
  c == ' ' || c == '\t' || c == '\n' || c == '\r' || c == '\x0b' || c == '\x0c'

/-- Attempt to match `SECRET_REF_PATTERN`
(`\$\\x7b\\x7b\s*secrets\.\w+\s*\\x7d\\x7d`) at the head of the input;
return the matched text and the remainder. -/
def trySecretRef (l : List Char) : Option (List Char × List Char) :=
  match l with
  | '$' :: '\x7b' :: '\x7b' :: rest =>
    let ws1 := rest.takeWhile isSpaceChar
    let r1 := rest.dropWhile isSpaceChar
    if listIsPre "secrets.".data r1 then
      let r2 := r1.drop 8
      let word := r2.takeWhile isWordChar
      if word.isEmpty then none
      else
        let r3 := r2.dropWhile isWordChar
        let ws2 := r3.takeWhile isSpaceChar
        let r4 := r3.dropWhile isSpaceChar
        match r4 with
        | '\x7d' :: '\x7d' :: after =>
            some ('$' :: '\x7b' :: '\x7b'
              :: (ws1 ++ ("secrets.".data ++ word ++ ws2 ++ ['\x7d', '\x7d'])),
              after)
        | _ => none
    else none
  | _ => none

/-- The `SECRET_REF_PATTERN.findall`: leftmost non-overlapping matches, moving
one character forward after a failed attempt (fuelled by text length). -/
def findSecretRefsAux : Nat → List Char → List (List Char)
  | 0, _ => []
  | _ + 1, [] => []
  | fuel + 1, c :: rest =>
    match trySecretRef (c :: rest) with
    | some (m, after) => m :: findSecretRefsAux fuel after
    | none => findSecretRefsAux fuel rest

/-- The `SECRET_REF_PATTERN.findall` over a script text. -/
def findSecretRefs (l : List Char) : List (List Char) := findSecretRefsAux l.length l

/-- Body of the step loop of `check_secret_handling`: one finding per step
aggregating every matched secret reference. -/
def secretStepFindings (wf : Workflow) (job : Job) (step : Step) :
    Except PyErr (List Finding) :=
  if !pyTruthy step.run then .ok []
  else
    match step.run with
    | .str s =>
      let secrets_in_run := findSecretRefs s.data
      if !secrets_in_run.isEmpty then do
        let f ← findingWithLine
          { rule_id := "secret-in-run", severity := .HIGH,
            title := "Secret used directly in \x27run:\x27 block",
            description := "The step uses "
              ++ String.intercalate ", " (secrets_in_run.map String.mk)
              ++ " directly in a shell command. This risks exposing the secret"
              ++ " in logs or to external processes. Pass secrets via"
              ++ " environment variables instead:\n  env:\n"
              ++ "    MY_SECRET: $\x7b\x7b secrets.MY_SECRET \x7d\x7d\n"
              ++ "  run: echo \"$MY_SECRET\"",
            file_path := wf.file_path, job_id := job.job_id.pyStr,
            step_name := pyOrStr step.name "(unnamed step)" }
          step.line_number
        .ok [f]
      else .ok []
    | _ => .error (.typeError "expected string or bytes-like object")

/-- The `check_secret_handling` of `secret_handling.py`. -/
def check_secret_handling (wf : Workflow) : Except PyErr (List Finding) :=
  concatMapE (fun job => concatMapE (secretStepFindings wf job) job.steps) wf.jobs

/-- The rule registry `_rules` in the order the modules register themselves
(import order in `rules/__init__.py`). -/
def registeredRules : List (Workflow → Except PyErr (List Finding)) :=
  [ check_unpinned_actions,
    check_permissions,
    check_script_injection,
    check_dangerous_triggers,
    check_secret_handling ]

/-- The loop of `run_all_rules`: call each rule in order and extend the
accumulated list; an exception inside a rule propagates unmodified. -/
def runRules : List (Workflow → Except PyErr (List Finding)) → Workflow →
    Except PyErr (List Finding)
  | [], _ => .ok []
  | r :: rs, wf => do
      let fs ← r wf
      let rest ← runRules rs wf
      .ok (fs ++ rest)

/-- The `run_all_rules` of `engine.py`. -/
def run_all_rules (wf : Workflow) : Except PyErr (List Finding) :=
  runRules registeredRules wf

/-! Concrete documents and workflows used to settle the claims. -/

/-- The four spec-listed malformed reference shapes (empty text, no path
separator, container-image or local-filesystem scheme, no revision
separator), grouped as the spec lists them. -/
def specAbsentShapes (s : String) : Bool :=
  (s == "" || !hasChar '/' s.data) ||
  (listIsPre "docker://".data s.data || listIsPre "./".data s.data) ||
  !hasChar '@' s.data

/-- Loaded document of end-to-end scenario A: `permissions: write-all`, one
step using `actions/checkout@v3`, trigger `pull_request_target` (the bare
`on:` key loads as the boolean `True` in YAML 1.1). -/
def scenarioDocA : Yaml := .map
  [ (.str "name", .str "Insecure CI"),
    (.bool true, .str "pull_request_target"),
    (.str "permissions", .str "write-all"),
    (.str "jobs", .map
      [ (.str "build", .map
          [ (.str "steps", .list
              [ .map [ (.str "uses", .str "actions/checkout@v3"),
                       (.str "__line__", .int 7) ] ]),
            (.str "__line__", .int 6) ]) ]),
    (.str "__line__", .int 1) ]

/-- A workflow with one job containing the given steps. -/
def oneJobWorkflow (steps : List Step) : Workflow :=
  { file_path := "test.yml", name := .str "Test", triggers := [],
    permissions := some [(.str "contents", .str "read")], env := .map [],
    jobs := [ { job_id := .str "test-job", name := .null,
                runs_on := "ubuntu-latest", permissions := none,
                steps := steps, env := .map [], raw := [],
                line_number := .int 3 } ],
    raw := [], line_number := .int 1 }

/-- A step that only runs an inline script, carrying a line number. -/
def runStep (run : String) : Step :=
  { name := .null, uses := none, run := .str run, env := .map [],
    with_args := .map [], raw := [], line_number := .int 9 }

/-- A step that uses `actions/checkout@v3`, carrying a line number. -/
def checkoutStep : Step :=
  { name := .str "Checkout", uses := _parse_action_ref "actions/checkout@v3",
    run := .null, env := .map [], with_args := .map [], raw := [],
    line_number := .int 5 }

/-- Workflow exercising the three line-number-passing checks: an unpinned
reference, an injectable script, and a direct secret use. -/
def lineNumberProbeWf : Workflow :=
  oneJobWorkflow
    [ checkoutStep,
      runStep "echo \"$\x7b\x7b github.event.pull_request.title \x7d\x7d\"",
      runStep "curl -H \"Authorization: Bearer $\x7b\x7b secrets.TOKEN \x7d\x7d\"" ]

/-- Workflow of end-to-end scenario C (injectable script). -/
def injectionProbeWf : Workflow :=
  oneJobWorkflow [runStep "echo \"$\x7b\x7b github.event.pull_request.title \x7d\x7d\""]

/-- Workflow with only a safe interpolation (scenario C, safe half). -/
def safeExprWf : Workflow :=
  oneJobWorkflow [runStep "echo \"$\x7b\x7b github.sha \x7d\x7d\""]

/-- A workflow with no declared permissions, no triggers and no jobs. -/
def emptyWf : Workflow :=
  { file_path := "empty.yml", name := .null, triggers := [], permissions := none,
    env := .map [], jobs := [], raw := [], line_number := .null }

/-- The `missing-permissions` finding `check_permissions` produces for
`emptyWf`. -/
def missingPermFinding : Finding :=
  { rule_id := "missing-permissions", severity := .MEDIUM,
    title := "No top-level permissions defined",
    description := "This workflow does not declare a top-level"
      ++ " \x27permissions\x27 block. Without it, the default token may"
      ++ " have broad read-write access. Explicitly set permissions to"
      ++ " the minimum required.",
    file_path := "empty.yml", job_id := "", step_name := "" }

/-- Does a parse outcome either succeed or fail with one of the two error
kinds `parse_workflows_dir` catches? -/
def catchableOrOk : Except PyErr Workflow → Bool
  | .ok _ => true
  | .error (.valueError _) => true
  | .error .yamlError => true
  | .error _ => false

/-- The parse outcome of one directory entry, as an option. -/
def parsedOpt (f : String × Loaded) : Option Workflow :=
  match parse_workflow f.1 f.2 with
  | .ok w => some w
  | .error _ => none

/-- The recognized-extension filter of `parse_workflows_dir`. -/
def recognizedExt (f : String × Loaded) : Bool :=
  pySuffix f.1 == ".yml" || pySuffix f.1 == ".yaml"

/-- Directory listing with one well-formed and one malformed file. -/
def mixedDir : List (String × Loaded) :=
  [ ("good.yml", .ok (.map [(.str "name", .str "ok"), (.str "__line__", .int 1)])),
    ("bad.yml", .ok (.str "just a string, not a mapping")) ]

/-- The workflow parsed from the well-formed file of `mixedDir`. -/
def goodWf : Workflow :=
  { file_path := "good.yml", name := .str "ok", triggers := [], permissions := none,
    env := .map [], jobs := [],
    raw := [(.str "name", .str "ok"), (.str "__line__", .int 1)],
    line_number := .int 1 }

/-- Loaded document whose `on`, `env` and `permissions` values are mapping
nodes processed by the loader hook. -/
def lineSurfacingDoc : Yaml := .map (_construct_mapping
  [ (.str "on", .map (_construct_mapping [(.str "push", .null)] 2)),
    (.str "env", .map (_construct_mapping [(.str "A", .str "b")] 4)),
    (.str "permissions", .map (_construct_mapping [(.str "contents", .str "read")] 6)) ] 1)

/-- The workflow parsed from `lineSurfacingDoc`. -/
def lineSurfacingWf : Workflow :=
  { file_path := "c.yml", name := .null,
    triggers := [.str "push", .str "__line__"],
    permissions := some [(.str "contents", .str "read"), (.str "__line__", .int 6)],
    env := .map [(.str "A", .str "b"), (.str "__line__", .int 4)],
    jobs := [],
    raw := [ (.str "on", .map [(.str "push", .null), (.str "__line__", .int 2)]),
             (.str "env", .map [(.str "A", .str "b"), (.str "__line__", .int 4)]),
             (.str "permissions",
               .map [(.str "contents", .str "read"), (.str "__line__", .int 6)]),
             (.str "__line__", .int 1) ],
    line_number := .int 1 }

/-- The workflow parsed from a document whose trigger value sits under the
implicit boolean key. -/
def implicitOnWf : Workflow :=
  { file_path := "w.yml", name := .null, triggers := [.str "push"],
    permissions := none, env := .map [], jobs := [],
    raw := [(.bool true, .str "push")], line_number := .null }

/-- Is an exception the `SchemaError` kind (the `ValueError` raised for a
non-mapping root)? -/
def isSchemaKind : PyErr → Bool
  | .valueError _ => true
  | _ => false

/-- Does a call outcome raise the `SchemaError` kind? -/
def raisesSchemaErr {α : Type} : Except PyErr α → Bool
  | .error e => isSchemaKind e
  | .ok _ => false

/-! Helper lemmas shared by the claim theorems. -/

theorem hasChar_iff_mem (c : Char) (l : List Char) :
    hasChar c l = true ↔ c ∈ l := by
  induction l with
  | nil => simp [hasChar]
  | cons x xs ih =>
    simp only [hasChar, Bool.or_eq_true, beq_iff_eq, ih, List.mem_cons]
    exact or_congr ⟨fun h => h.symm, fun h => h.symm⟩ Iff.rfl

theorem rsplit1_eq_none_iff (c : Char) (l : List Char) :
    rsplit1 c l = none ↔ hasChar c l = false := by
  induction l with
  | nil => simp [rsplit1, hasChar]
  | cons x xs ih =>
    simp only [rsplit1, hasChar, Bool.or_eq_false_iff]
    cases h : rsplit1 c xs with
    | some p =>
      have hxs : ¬ hasChar c xs = false := fun hf => by
        rw [ih.mpr hf] at h; exact Option.noConfusion h
      simp [hxs]
    | none =>
      have hxs : hasChar c xs = false := ih.mp h
      by_cases hx : (x == c) = true <;> simp [hx, hxs]

theorem dGetD_of_none {es : List (Key × Yaml)} {k : Key} {d : Yaml}
    (h : dGet es k = none) : dGetD es k d = d := by
  unfold dGetD; rw [h]

theorem dGetD_of_some {es : List (Key × Yaml)} {k : Key} {d v : Yaml}
    (h : dGet es k = some v) : dGetD es k d = v := by
  unfold dGetD; rw [h]

theorem parse_workflow_ok_fields {fp : String} {es : List (Key × Yaml)}
    {wf : Workflow} (h : parse_workflow fp (.ok (.map es)) = .ok wf) :
    wf.file_path = fp ∧
    wf.triggers = _parse_triggers
      (dGetD es (.str "on") (dGetD es (.bool true) (.list []))) ∧
    wf.permissions = _parse_permissions (dGetD es (.str "permissions") .null) ∧
    wf.env = dGetD es (.str "env") (.map []) := by
  simp only [parse_workflow] at h
  split at h
  · exact absurd h (by simp)
  · injection h with h
    subst h
    exact ⟨rfl, rfl, rfl, rfl⟩

theorem pyInsert_key_mem (m : List (Key × Yaml)) (k : Key) (v : Yaml) :
    ∃ v', (k, v') ∈ pyInsert m k v := by
  induction m with
  | nil => exact ⟨v, List.mem_singleton.mpr rfl⟩
  | cons kv rest ih =>
    rcases kv with ⟨k0, v0⟩
    by_cases hk : (k0 == k) = true
    · refine ⟨v, ?_⟩
      simp only [pyInsert, hk, if_true]
      have : k0 = k := by simpa using hk
      subst this
      exact List.mem_cons_self _ _
    · rcases ih with ⟨v', hv'⟩
      refine ⟨v', ?_⟩
      simp only [pyInsert, hk, if_false]
      exact List.mem_cons_of_mem _ hv'

/-! Claim theorems. -/

set_option maxRecDepth 8192 in
/-- Claim C3: the pin classifier accepts exactly the strings of length 40
all of whose characters, case-folded, are hexadecimal digits; a
39-character all-hex string is never pinned and a 40-character
uppercase-hex string is pinned. -/
theorem pin_classification :
    (∀ r : String, is_pinned r = true ↔
      (r.length = 40 ∧ ∀ c ∈ r.data, c.toLower ∈ hexDigits)) ∧
    is_pinned (String.mk (List.replicate 39 'a')) = false ∧
    is_pinned "AF513C7A016048AE468971C52ED77D9562C7C819" = true := by
  refine ⟨fun r => ?_, by decide, by decide⟩
  unfold is_pinned
  rw [Bool.and_eq_true, beq_iff_eq]
  constructor
  · rintro ⟨h40, hall⟩
    refine ⟨h40, fun c hc => ?_⟩
    have := (List.all_eq_true.mp hall) (c.toLower) (List.mem_map_of_mem _ hc)
    exact (hasChar_iff_mem _ _).mp this
  · rintro ⟨h40, hall⟩
    refine ⟨h40, List.all_eq_true.mpr ?_⟩
    intro x hx
    rcases List.mem_map.mp hx with ⟨c, hc, rfl⟩
    exact (hasChar_iff_mem _ _).mpr (hall c hc)

/-- Witness for C3 at a concrete 40-character lowercase hex revision. -/
theorem pin_classification_witness :
    is_pinned "0123456789abcdef0123456789abcdef01234567" = true :=
  (pin_classification.1 _).mpr ⟨by decide, by decide⟩

/-- Counterexample to claim C4: `"a@b/c"` is nonempty, has a path
separator, no scheme prefix, and a revision separator — none of the four
malformed shapes — yet the reference parser returns absent, because the
path before the last separator has fewer than two segments. -/
theorem reference_absent_shapes_cex :
    specAbsentShapes "a@b/c" = false ∧ _parse_action_ref "a@b/c" = none :=
  ⟨by decide, by decide⟩

/-- Claim C4 as amended: the reference parser (total by construction)
returns absent exactly for the four spec shapes plus a fifth: inputs whose
text before the last `@` splits on `/` into fewer than two segments. -/
theorem reference_absent_iff (s : String) :
    _parse_action_ref s = none ↔
      (specAbsentShapes s = true ∨
        ∃ p r, rsplit1 '@' s.data = some (p, r) ∧
          (splitOnChar '/' p).length < 2) := by
  unfold _parse_action_ref specAbsentShapes
  cases h1 : (s == "" || !hasChar '/' s.data) with
  | true => simp [h1]
  | false =>
    cases h2 : (listIsPre "docker://".data s.data
        || listIsPre "./".data s.data) with
    | true => simp [h1, h2]
    | false =>
      cases h3 : (!hasChar '@' s.data) with
      | true => simp [h1, h2, h3]
      | false =>
        have hat : hasChar '@' s.data = true := by
          cases hv : hasChar '@' s.data
          · rw [hv] at h3; exact absurd h3 (by simp)
          · rfl
        rcases hpr : rsplit1 '@' s.data with _ | ⟨p, r⟩
        · rw [(rsplit1_eq_none_iff _ _).mp hpr] at hat
          exact absurd hat (by simp)
        · simp only [h1, h2, h3, hpr, Bool.false_eq_true, if_false,
            Bool.or_self, Option.some.injEq, false_or]
          constructor
          · intro hnone
            refine ⟨p, r, rfl, ?_⟩
            rcases hparts : splitOnChar '/' p with _ | ⟨a, t⟩
            · simp [hparts]
            · rcases t with _ | ⟨b, t'⟩
              · simp [hparts]
              · rw [hparts] at hnone
                exact absurd hnone (by simp)
          · rintro ⟨p', r', heq, hlen⟩
            have hp : p = p' := congrArg Prod.fst heq
            rw [← hp] at hlen
            rcases hparts : splitOnChar '/' p with _ | ⟨a, t⟩
            · rfl
            · rcases t with _ | ⟨b, t'⟩
              · rfl
              · rw [hparts] at hlen
                simp only [List.length_cons] at hlen
                exact absurd hlen (by omega)

/-- Witness for C4 (amended) at the concrete input `"a@b/c"`. -/
theorem reference_absent_iff_witness : _parse_action_ref "a@b/c" = none :=
  (reference_absent_iff "a@b/c").mpr
    (Or.inr ⟨"a".data, "b/c".data, by decide, by decide⟩)

/-- Claim C1: scenario A parses, but instead of returning the three
findings, evaluation raises a `TypeError`, because `check_unpinned_actions`
passes `line_number=` to a `Finding` dataclass that declares no such
field (the tests of the repository expect the three findings). -/
theorem scenario_a_evaluation_raises :
    (parse_workflow ".github/workflows/ci.yml" (.ok scenarioDocA)).isOk = true ∧
    Except.bind (parse_workflow ".github/workflows/ci.yml" (.ok scenarioDocA))
        run_all_rules
      = .error (.typeError lineKwMsg) :=
  ⟨rfl, rfl⟩

/-- Claim C2: the `Finding` dataclass of `engine.py` declares no
`line_number` field, so the unpinned-reference, script-injection and
secret-exposure checks raise a `TypeError` whenever they try to construct
a finding populated with a step line number (the reporters and tests of
the repository rely on the field existing). -/
theorem finding_line_number_missing :
    findingFields.contains "line_number" = false ∧
    check_unpinned_actions lineNumberProbeWf = .error (.typeError lineKwMsg) ∧
    check_script_injection lineNumberProbeWf = .error (.typeError lineKwMsg) ∧
    check_secret_handling lineNumberProbeWf = .error (.typeError lineKwMsg) :=
  ⟨rfl, rfl, rfl, rfl⟩

/-- Claim C6: on a step whose script interpolates a user-controllable
context (scenario C), the script-injection check raises a `TypeError`
while constructing the finding — `Finding` has no `line_number` field —
instead of returning exactly one CRITICAL finding; a step with only a safe
interpolation yields zero findings as claimed. -/
theorem script_injection_match_raises :
    check_script_injection injectionProbeWf = .error (.typeError lineKwMsg) ∧
    check_script_injection safeExprWf = .ok [] :=
  ⟨rfl, rfl⟩

/-- Counterexample to claim C5: a document whose root is a mapping but
whose `jobs` value is the scalar `5` makes the normalizer raise an
`AttributeError` (on `jobs_raw.items()`) instead of degrading to a
default. -/
theorem normalizer_jobs_cex :
    parse_workflow "wf.yml" (.ok (.map [(.str "jobs", .int 5)])) =
      .error (.attributeError "object has no attribute items") :=
  rfl

theorem bind_no_schema {α β : Type} (x : Except PyErr α) (f : α → Except PyErr β)
    (hx : raisesSchemaErr x = false) (hf : ∀ a, raisesSchemaErr (f a) = false) :
    raisesSchemaErr (Except.bind x f) = false := by
  cases x with
  | error e => exact hx
  | ok a => exact hf a

theorem stepUses_no_schema (u : Yaml) :
    raisesSchemaErr (stepUses u) = false := by
  unfold stepUses
  by_cases hb : pyTruthy u = true
  · rw [if_pos hb]
    cases u <;> rfl
  · rw [if_neg hb]
    rfl

theorem parse_step_no_schema (m : List (Key × Yaml)) :
    raisesSchemaErr (_parse_step m) = false :=
  bind_no_schema _ _ (stepUses_no_schema _) (fun _ => rfl)

theorem pyIterate_no_schema (v : Yaml) :
    raisesSchemaErr (pyIterate v) = false := by
  cases v <;> rfl

theorem mapM_no_schema {α β : Type} (f : α → Except PyErr β)
    (hf : ∀ a, raisesSchemaErr (f a) = false) (l : List α) :
    raisesSchemaErr (l.mapM f) = false := by
  induction l with
  | nil => rfl
  | cons a as ih =>
    rw [List.mapM_cons]
    exact bind_no_schema _ _ (hf a)
      (fun b => bind_no_schema _ _ ih (fun bs => rfl))

theorem parse_job_no_schema (job_id : Key) (jv : Yaml) :
    raisesSchemaErr (_parse_job job_id jv) = false := by
  cases jv with
  | map jes =>
    exact bind_no_schema _ _
      (pyIterate_no_schema (dGetD jes (.str "steps") (.list [])))
      (fun it => bind_no_schema _ _
        (mapM_no_schema _parse_step parse_step_no_schema _)
        (fun steps => rfl))
  | str s => rfl
  | int n => rfl
  | bool b => rfl
  | null => rfl
  | list xs => rfl

/-- Claim C5 as amended: the `SchemaError` (`ValueError`) is raised exactly
when the root is not a mapping — a mapping root never raises it — and a
root mapping with an absent `jobs` field normalizes successfully whatever
the other fields hold; but a present non-mapping `jobs` value raises an
`AttributeError`, as does a non-mapping individual unit-of-work value,
instead of degrading. -/
theorem normalizer_leniency_amended :
    (∀ (fp : String) (v : Yaml), (∀ es, v ≠ .map es) →
      parse_workflow fp (.ok v) =
        .error (.valueError "Workflow file is not a valid YAML mapping")) ∧
    (∀ (fp : String) (es : List (Key × Yaml)),
      raisesSchemaErr (parse_workflow fp (.ok (.map es))) = false) ∧
    (∀ (fp : String) (es : List (Key × Yaml)) (jv : Yaml),
      dGet es (.str "jobs") = some jv → (∀ jes, jv ≠ .map jes) →
      parse_workflow fp (.ok (.map es)) =
        .error (.attributeError "object has no attribute items")) ∧
    (∀ (fp : String) (es : List (Key × Yaml)),
      dGet es (.str "jobs") = none →
      ∃ wf, parse_workflow fp (.ok (.map es)) = .ok wf ∧ wf.jobs = []) ∧
    (∀ (job_id : Key) (jv : Yaml), (∀ jes, jv ≠ .map jes) →
      _parse_job job_id jv =
        .error (.attributeError "object has no attribute get")) := by
  refine ⟨?_, ?_, ?_, ?_, ?_⟩
  · intro fp v hv
    cases v with
    | map es => exact absurd rfl (hv es)
    | str s => rfl
    | int n => rfl
    | bool b => rfl
    | null => rfl
    | list xs => rfl
  · intro fp es
    have hjr : raisesSchemaErr (parseJobsField es) = false := by
      unfold parseJobsField
      cases dGetD es (.str "jobs") (.map []) with
      | map jes =>
        exact mapM_no_schema _
          (fun (kv : Key × Yaml) => parse_job_no_schema kv.1 kv.2) _
      | str s => rfl
      | int n => rfl
      | bool b => rfl
      | null => rfl
      | list xs => rfl
    simp only [parse_workflow]
    cases hj : parseJobsField es with
    | error e =>
      rw [hj] at hjr
      exact hjr
    | ok jobs => rfl
  · intro fp es jv hjv hnm
    have hd : dGetD es (.str "jobs") (.map []) = jv := dGetD_of_some hjv
    cases jv with
    | map jes => exact absurd rfl (hnm jes)
    | str s => simp only [parse_workflow, parseJobsField, hd]
    | int n => simp only [parse_workflow, parseJobsField, hd]
    | bool b => simp only [parse_workflow, parseJobsField, hd]
    | null => simp only [parse_workflow, parseJobsField, hd]
    | list xs => simp only [parse_workflow, parseJobsField, hd]
  · intro fp es hj
    have hd : dGetD es (.str "jobs") (.map []) = .map [] := dGetD_of_none hj
    simp only [parse_workflow, parseJobsField, hd]
    exact ⟨_, rfl, rfl⟩
  · intro job_id jv hnm
    cases jv with
    | map jes => exact absurd rfl (hnm jes)
    | str s => rfl
    | int n => rfl
    | bool b => rfl
    | null => rfl
    | list xs => rfl

/-- Claim C7: trigger normalization maps a bare string to a one-element
list, a list to itself, a mapping to its keys in order, and absence to the
empty list — also when the trigger value sits under the format implicit
boolean key. -/
theorem triggers_normalization :
    (∀ s, _parse_triggers (.str s) = [.str s]) ∧
    (∀ xs, _parse_triggers (.list xs) = xs) ∧
    (∀ es, _parse_triggers (.map es) = es.map (fun kv => kv.1.toYaml)) ∧
    _parse_triggers .null = [] ∧
    (∀ (fp : String) (es : List (Key × Yaml)) (wf : Workflow),
      parse_workflow fp (.ok (.map es)) = .ok wf →
      dGet es (.str "on") = none → dGet es (.bool true) = none →
      wf.triggers = []) ∧
    (∀ (fp : String) (es : List (Key × Yaml)) (wf : Workflow) (v : Yaml),
      parse_workflow fp (.ok (.map es)) = .ok wf →
      dGet es (.str "on") = none → dGet es (.bool true) = some v →
      wf.triggers = _parse_triggers v) := by
  refine ⟨fun s => rfl, fun xs => rfl, fun es => rfl, rfl, ?_, ?_⟩
  · intro fp es wf hok hon htrue
    have ht := (parse_workflow_ok_fields hok).2.1
    rw [dGetD_of_none hon, dGetD_of_none htrue] at ht
    exact ht
  · intro fp es wf v hok hon htrue
    have ht := (parse_workflow_ok_fields hok).2.1
    rw [dGetD_of_none hon, dGetD_of_some htrue] at ht
    exact ht

/-- Witness for C7 at a concrete document whose trigger value sits under
the implicit boolean key. -/
theorem triggers_normalization_witness :
    parse_workflow "w.yml" (.ok (.map [(.bool true, .str "push")])) =
      .ok implicitOnWf ∧
    implicitOnWf.triggers = [.str "push"] :=
  ⟨rfl,
   (triggers_normalization.2.2.2.2.2 "w.yml" [(.bool true, .str "push")]
      implicitOnWf (.str "push") rfl rfl rfl).trans rfl⟩

/-- Claim C8: the engine runs the five registered checks in registration
order and returns the concatenation of their outputs with no
post-processing; evaluation is deterministic. -/
theorem engine_concatenation (wf : Workflow) (l1 l2 l3 l4 l5 : List Finding)
    (h1 : check_unpinned_actions wf = .ok l1)
    (h2 : check_permissions wf = .ok l2)
    (h3 : check_script_injection wf = .ok l3)
    (h4 : check_dangerous_triggers wf = .ok l4)
    (h5 : check_secret_handling wf = .ok l5) :
    run_all_rules wf = .ok (l1 ++ l2 ++ l3 ++ l4 ++ l5) ∧
    run_all_rules wf = run_all_rules wf := by
  refine ⟨?_, rfl⟩
  have hrun : run_all_rules wf =
      .ok (l1 ++ (l2 ++ (l3 ++ (l4 ++ (l5 ++ []))))) := by
    simp only [run_all_rules, registeredRules, runRules, h1, h2, h3, h4, h5]
    rfl
  rw [hrun]
  simp [List.append_assoc]

/-- Witness for C8 at a workflow with no declared permissions: evaluation
returns exactly the one `missing-permissions` finding of the second
registered check. -/
theorem engine_concatenation_witness :
    run_all_rules emptyWf =
      .ok ([] ++ [missingPermFinding] ++ [] ++ [] ++ []) :=
  (engine_concatenation emptyWf [] [missingPermFinding] [] [] []
    rfl rfl rfl rfl rfl).1

theorem mem_insertFile {x y : String × Loaded} {l : List (String × Loaded)} :
    y ∈ insertFile x l ↔ y = x ∨ y ∈ l := by
  induction l with
  | nil => simp [insertFile]
  | cons z zs ih =>
    simp only [insertFile]
    cases hlt : nameLt z.1.data x.1.data with
    | true =>
      rw [if_pos (rfl : (true : Bool) = true)]
      simp only [List.mem_cons, ih]
      tauto
    | false =>
      rw [if_neg (by simp : ¬((false : Bool) = true))]
      simp only [List.mem_cons]

theorem mem_sortFiles {y : String × Loaded} {l : List (String × Loaded)} :
    y ∈ sortFiles l ↔ y ∈ l := by
  induction l with
  | nil => simp [sortFiles]
  | cons x xs ih => simp [sortFiles, mem_insertFile, ih]

theorem parseDirGo_ok {l : List (String × Loaded)}
    (h : ∀ f ∈ l, catchableOrOk (parse_workflow f.1 f.2) = true) :
    parseDirGo l = .ok (l.filterMap parsedOpt) := by
  induction l with
  | nil => rfl
  | cons f rest ih =>
    rcases f with ⟨nm, ld⟩
    have hf := h _ (List.mem_cons_self _ _)
    have hrest := ih (fun g hg => h g (List.mem_cons_of_mem _ hg))
    cases hp : parse_workflow nm ld with
    | ok w =>
      simp only [parseDirGo, hp, hrest, List.filterMap_cons, parsedOpt]
      rfl
    | error e =>
      rw [hp] at hf
      cases e with
      | valueError m =>
        simp only [parseDirGo, hp, hrest, List.filterMap_cons, parsedOpt]
      | yamlError =>
        simp only [parseDirGo, hp, hrest, List.filterMap_cons, parsedOpt]
      | attributeError m => exact absurd hf (by simp [catchableOrOk])
      | typeError m => exact absurd hf (by simp [catchableOrOk])

/-- Claim C9: the directory-batch parser parses each recognized file
independently and skips, rather than fails on, every file whose parse
raises a `FormatError` (`yaml.YAMLError`) or `SchemaError`
(`ValueError`). -/
theorem batch_scan_skips_malformed (files : List (String × Loaded))
    (h : ∀ f ∈ files, catchableOrOk (parse_workflow f.1 f.2) = true) :
    parse_workflows_dir files =
      .ok ((sortFiles (files.filter recognizedExt)).filterMap parsedOpt) := by
  unfold parse_workflows_dir
  refine parseDirGo_ok ?_
  intro f hf
  exact h f (List.mem_filter.mp (mem_sortFiles.mp hf)).1

/-- Witness for C9: a directory with one well-formed and one malformed
file yields exactly the one parsed document. -/
theorem batch_scan_skips_malformed_witness :
    parse_workflows_dir mixedDir = .ok [goodWf] :=
  (batch_scan_skips_malformed mixedDir (by decide)).trans rfl

/-- Claim C10: the loader injects `__line__` into every mapping node and
only unit-key enumeration filters it, so a document whose trigger field,
permission-scope mapping, or environment mapping is written as a mapping
surfaces `__line__` as an extra trigger name or as an extra key. -/
theorem loader_line_key_surfaces :
    (∀ (fp : String) (es : List (Key × Yaml)) (wf : Workflow)
        (ces : List (Key × Yaml)) (line : Nat),
      parse_workflow fp (.ok (.map es)) = .ok wf →
      dGet es (.str "on") = some (.map (_construct_mapping ces line)) →
      Yaml.str "__line__" ∈ wf.triggers) ∧
    (∀ (fp : String) (es : List (Key × Yaml)) (wf : Workflow)
        (ces : List (Key × Yaml)) (line : Nat),
      parse_workflow fp (.ok (.map es)) = .ok wf →
      dGet es (.str "permissions") = some (.map (_construct_mapping ces line)) →
      ∃ ps, wf.permissions = some ps ∧ Key.str "__line__" ∈ ps.map Prod.fst) ∧
    (∀ (fp : String) (es : List (Key × Yaml)) (wf : Workflow)
        (ces : List (Key × Yaml)) (line : Nat),
      parse_workflow fp (.ok (.map es)) = .ok wf →
      dGet es (.str "env") = some (.map (_construct_mapping ces line)) →
      ∃ ees, wf.env = .map ees ∧ Key.str "__line__" ∈ ees.map Prod.fst) := by
  refine ⟨?_, ?_, ?_⟩
  · intro fp es wf ces line hok hon
    have ht := (parse_workflow_ok_fields hok).2.1
    rw [dGetD_of_some hon] at ht
    rw [ht]
    rcases pyInsert_key_mem ces (.str "__line__") (.int line) with ⟨v', hv'⟩
    exact List.mem_map.mpr ⟨(Key.str "__line__", v'), hv', rfl⟩
  · intro fp es wf ces line hok hperm
    have hp := (parse_workflow_ok_fields hok).2.2.1
    rw [dGetD_of_some hperm] at hp
    rcases pyInsert_key_mem ces (.str "__line__") (.int line) with ⟨v', hv'⟩
    exact ⟨_, hp, List.mem_map.mpr ⟨(Key.str "__line__", v'), hv', rfl⟩⟩
  · intro fp es wf ces line hok henv
    have he := (parse_workflow_ok_fields hok).2.2.2
    rw [dGetD_of_some henv] at he
    rcases pyInsert_key_mem ces (.str "__line__") (.int line) with ⟨v', hv'⟩
    exact ⟨_, he, List.mem_map.mpr ⟨(Key.str "__line__", v'), hv', rfl⟩⟩

/-- Witness for C10 at a concrete document whose `on`, `permissions` and
`env` values are loader-processed mappings. -/
theorem loader_line_key_surfaces_witness :
    parse_workflow "c.yml" (.ok lineSurfacingDoc) = .ok lineSurfacingWf ∧
    Yaml.str "__line__" ∈ lineSurfacingWf.triggers ∧
    (∃ ps, lineSurfacingWf.permissions = some ps ∧
      Key.str "__line__" ∈ ps.map Prod.fst) ∧
    (∃ ees, lineSurfacingWf.env = .map ees ∧
      Key.str "__line__" ∈ ees.map Prod.fst) :=
  ⟨rfl,
   loader_line_key_surfaces.1 "c.yml"
     (_construct_mapping
       [ (.str "on", .map (_construct_mapping [(.str "push", .null)] 2)),
         (.str "env", .map (_construct_mapping [(.str "A", .str "b")] 4)),
         (.str "permissions",
           .map (_construct_mapping [(.str "contents", .str "read")] 6)) ] 1)
     lineSurfacingWf [(.str "push", .null)] 2 rfl rfl,
   loader_line_key_surfaces.2.1 "c.yml"
     (_construct_mapping
       [ (.str "on", .map (_construct_mapping [(.str "push", .null)] 2)),
         (.str "env", .map (_construct_mapping [(.str "A", .str "b")] 4)),
         (.str "permissions",
           .map (_construct_mapping [(.str "contents", .str "read")] 6)) ] 1)
     lineSurfacingWf [(.str "contents", .str "read")] 6 rfl rfl,
   loader_line_key_surfaces.2.2 "c.yml"
     (_construct_mapping
       [ (.str "on", .map (_construct_mapping [(.str "push", .null)] 2)),
         (.str "env", .map (_construct_mapping [(.str "A", .str "b")] 4)),
         (.str "permissions",
           .map (_construct_mapping [(.str "contents", .str "read")] 6)) ] 1)
     lineSurfacingWf [(.str "A", .str "b")] 4 rfl rfl⟩

/-- Witness for C5 (amended) at concrete documents: a string root, a
mapping root whose `jobs` mapping holds a unit with a malformed (scalar)
`steps` value — which raises a `TypeError`, never the `SchemaError` — a
list `jobs` value, a root with a `jobs`-free mapping, and a string unit. -/
theorem normalizer_leniency_witness :
    parse_workflow "a.yml" (.ok (.str "s")) =
      .error (.valueError "Workflow file is not a valid YAML mapping") ∧
    raisesSchemaErr (parse_workflow "d.yml" (.ok (.map
      [(.str "jobs", .map [(.str "j", .map [(.str "steps", .int 5)])])])))
      = false ∧
    parse_workflow "d.yml" (.ok (.map
      [(.str "jobs", .map [(.str "j", .map [(.str "steps", .int 5)])])])) =
      .error (.typeError "object is not iterable") ∧
    parse_workflow "b.yml" (.ok (.map [(.str "jobs", .list [.str "x"])])) =
      .error (.attributeError "object has no attribute items") ∧
    (∃ wf, parse_workflow "c.yml" (.ok (.map [(.str "on", .str "push")])) =
      .ok wf ∧ wf.jobs = []) ∧
    _parse_job (.str "j") (.str "oops") =
      .error (.attributeError "object has no attribute get") :=
  ⟨normalizer_leniency_amended.1 "a.yml" (.str "s") (fun _ h => Yaml.noConfusion h),
   normalizer_leniency_amended.2.1 "d.yml"
     [(.str "jobs", .map [(.str "j", .map [(.str "steps", .int 5)])])],
   rfl,
   normalizer_leniency_amended.2.2.1 "b.yml" _ (.list [.str "x"]) rfl
     (fun _ h => Yaml.noConfusion h),
   normalizer_leniency_amended.2.2.2.1 "c.yml" [(.str "on", .str "push")] rfl,
   normalizer_leniency_amended.2.2.2.2 (.str "j") (.str "oops")
     (fun _ h => Yaml.noConfusion h)⟩

end GhaGuard
